import Mathlib

/-!
Verification of the access-control and vote-integrity core of the alx-polly
polling application.  The definitions below are a shallow embedding of the
TypeScript source: `sanitizeInput`, `validatePollInput`, `createPoll`,
`getPollById`, `submitVote`, `deletePoll`, `updatePoll` from
`app/lib/actions/poll-actions.ts`, `isAdmin` from
`app/lib/actions/auth-actions.ts`, and `isRateLimited` / `updateSession`
from `lib/supabase/middleware.ts`.  The persistence layer (Supabase) is
modelled as an explicit record of tables passed in and out of each
operation; `.single()` queries yield a value exactly when precisely one row
matches, and injectable error parameters model storage-layer failures.
JavaScript numbers used as option indices are modelled as rationals so that
negative and non-integer inputs are representable.
-/

namespace AlxPolly

/-- JavaScript whitespace characters relevant to `String.prototype.trim`
(ASCII fragment). -/
def isJsWs (c : Char) : Bool :=
  c = ' ' || c = '\t' || c = '\n' || c = '\r' || c = '\x0b' || c = '\x0c'

/-- JavaScript `String.prototype.trim` on a character list. -/
def jsTrim (cs : List Char) : List Char :=
  ((cs.dropWhile isJsWs).reverse.dropWhile isJsWs).reverse

/-- State machine realising the global replacement of the regex
`<[^>]*>` by the empty string.  The first component buffers the characters
of a potential tag: a `<` opens a buffer; a later `>` discards buffer and
itself; if the input ends with an open buffer there was no closing `>` and
the buffered characters are emitted verbatim (the regex does not match
them). -/
def stripTagsGo : Option (List Char) → List Char → List Char
  | none, [] => []
  | some buf, [] => buf
  | none, c :: cs =>
      if c = '<' then stripTagsGo (some [c]) cs
      else c :: stripTagsGo none cs
  | some buf, c :: cs =>
      if c = '>' then stripTagsGo none cs
      else stripTagsGo (some (buf ++ [c])) cs

/-- `input.replace(/<[^>]*>/g, "")` from `sanitizeInput`. -/
def stripTags (cs : List Char) : List Char := stripTagsGo none cs

/-- The entity table of `sanitizeInput`: the five characters `< > " ' &`
map to their named entities, every other character to itself. -/
def entityOf (c : Char) : List Char :=
  if c = '<' then "&lt;".data
  else if c = '>' then "&gt;".data
  else if c = '"' then "&quot;".data
  else if c = '\'' then "&#x27;".data
  else if c = '&' then "&amp;".data
  else [c]

/-- `input.replace(/[<>'"&]/g, char => entities[char])` from
`sanitizeInput`. -/
def escapeChars (cs : List Char) : List Char := cs.flatMap entityOf

/-- `sanitizeInput` from `poll-actions.ts`: strip tag-like markup, escape
the five special characters, then trim. -/
def sanitizeInput (s : String) : String :=
  ⟨jsTrim (escapeChars (stripTags s.data))⟩

/-- JavaScript `trim` on a `String`. -/
def trimStr (s : String) : String := ⟨jsTrim s.data⟩

/-- Case-insensitive containment of `pat` in `s`, used for the
`/<script|javascript:|data:/i` test of `validatePollInput`. -/
def startsWithSeq : List Char → List Char → Bool
  | [], _ => true
  | _ :: _, [] => false
  | p :: ps, c :: cs => p = c && startsWithSeq ps cs

/-- Whether `pat` occurs contiguously in `s`. -/
def containsSeq (pat : List Char) : List Char → Bool
  | [] => startsWithSeq pat []
  | c :: cs => startsWithSeq pat (c :: cs) || containsSeq pat cs

/-- The forbidden-pattern scan `/<script|javascript:|data:/i`. -/
def suspicious (s : String) : Bool :=
  let l := s.data.map Char.toLower
  containsSeq "<script".data l || containsSeq "javascript:".data l ||
    containsSeq "data:".data l

/-- Per-option loop of `validatePollInput` (empty, length, forbidden
pattern), carrying the 0-based index `i`. -/
def validateOptionsLoop : List String → Nat → Option String
  | [], _ => none
  | o :: rest, i =>
      if o = "" || (trimStr o).length = 0 then
        some ("Option " ++ toString (i + 1) ++ " cannot be empty")
      else if o.length > 200 then
        some ("Option " ++ toString (i + 1) ++ " must be 200 characters or less")
      else if suspicious o then
        some ("Option " ++ toString (i + 1) ++ " contains invalid content")
      else validateOptionsLoop rest (i + 1)

/-- `validatePollInput` from `poll-actions.ts`. -/
def validatePollInput (question : String) (options : List String) :
    Option String :=
  if question = "" || (trimStr question).length = 0 then
    some "Question is required"
  else if question.length > 500 then
    some "Question must be 500 characters or less"
  else if suspicious question then
    some "Question contains invalid content"
  else if options.length < 2 then
    some "At least 2 options are required"
  else if options.length > 10 then
    some "Maximum 10 options allowed"
  else
    match validateOptionsLoop options 0 with
    | some e => some e
    | none =>
        if ((options.map (fun o =>
              trimStr ⟨o.data.map Char.toLower⟩)).dedup).length ≠
            options.length then
          some "All options must be unique"
        else none

/-- A row of the `polls` table. -/
structure Poll where
  id : String
  user_id : String
  question : String
  options : List String
deriving DecidableEq, Repr

/-- A row of the `votes` table (`option_index` is stored as an integer,
`created_at` as a millisecond timestamp). -/
structure Vote where
  poll_id : String
  user_id : Option String
  option_index : Int
  created_at : Int
deriving DecidableEq, Repr

/-- The persistent store: the `polls`, `votes` and `user_roles` tables
(a role row is a `(user_id, role)` pair). -/
structure DB where
  polls : List Poll
  votes : List Vote
  roles : List (String × String)
deriving DecidableEq, Repr

/-- Result of `supabase.auth.getUser()`: the session user (if any) and the
auth-layer error message (if any). -/
structure AuthRes where
  user : Option String
  errMsg : Option String
deriving DecidableEq, Repr

/-- The uniform `{ error: string | null }` result shape of the server
actions. -/
structure ActionResult where
  error : Option String
deriving DecidableEq, Repr

/-- A `.single()` select on `polls` filtered by id: a row is returned
exactly when precisely one row matches. -/
def singlePoll (db : DB) (id : String) : Option Poll :=
  match db.polls.filter (fun p => p.id == id) with
  | [p] => some p
  | _ => none

/-- A `.single()` select on `user_roles` filtered by user id and role
`"admin"`. -/
def singleAdminRole (db : DB) (uid : String) : Option (String × String) :=
  match db.roles.filter (fun r => r.1 == uid && r.2 == "admin") with
  | [r] => some r
  | _ => none

/-- A `.single()` select on `votes` filtered by poll id and user id. -/
def singleVote (db : DB) (pollId uid : String) : Option Vote :=
  match db.votes.filter
      (fun v => v.poll_id == pollId && v.user_id == some uid) with
  | [v] => some v
  | _ => none

/-- `isAdmin` from `auth-actions.ts`.  `storeOk = false` models a failing
role-store lookup, in which case the destructured `data` is null; the
error field is discarded by the source and `!!data` is returned. -/
def isAdmin (userId : Option String) (storeOk : Bool) (db : DB) : Bool :=
  match userId with
  | none => false
  | some uid =>
      (if storeOk then singleAdminRole db uid else none).isSome

/-- `createPoll` from `poll-actions.ts`.  `insErr` injects the storage
insert failure (`error.message`), `newId` is the id the store would
generate for the inserted row. -/
def createPoll (auth : AuthRes) (insErr : Option String) (newId : String)
    (db : DB) (question : String) (optionsIn : List String) :
    ActionResult × DB :=
  let rawOptions := optionsIn.filter (fun o => o ≠ "")
  match validatePollInput question rawOptions with
  | some e => (⟨some e⟩, db)
  | none =>
      let q := sanitizeInput question
      let os := rawOptions.map sanitizeInput
      match auth.errMsg with
      | some m => (⟨some m⟩, db)
      | none =>
          match auth.user with
          | none => (⟨some "You must be logged in to create a poll."⟩, db)
          | some uid =>
              match insErr with
              | some m => (⟨some m⟩, db)
              | none =>
                  (⟨none⟩,
                   { db with polls := db.polls ++ [⟨newId, uid, q, os⟩] })

/-- `getPollById` from `poll-actions.ts`: returns `{ poll, error }`;
when the `.single()` fetch fails its raw `error.message` (here the
parameter `fetchErrMsg`) is returned. -/
def getPollById (fetchErrMsg : String) (db : DB) (id : String) :
    Option Poll × Option String :=
  match singlePoll db id with
  | some p => (some p, none)
  | none => (none, some fetchErrMsg)

/-- `submitVote` from `poll-actions.ts`.  The option index is a rational
so that negative and non-integer JavaScript numbers are representable;
`Number.isInteger` is `den = 1`.  The final insert fails exactly when the
partial unique index `idx_votes_unique_user_poll (poll_id, user_id)` of
`database-setup.sql` is violated, and the source maps that failure to the
generic retry message. -/
def submitVote (user : Option String) (db : DB) (pollId : String)
    (optionIndex : ℚ) (now : Int) : ActionResult × DB :=
  if pollId = "" ∨ pollId.length < 10 then (⟨some "Invalid poll ID"⟩, db)
  else if optionIndex < 0 ∨ optionIndex.den ≠ 1 then
    (⟨some "Invalid option selection"⟩, db)
  else
    match singlePoll db pollId with
    | none => (⟨some "Poll not found"⟩, db)
    | some poll =>
        if (poll.options.length : ℚ) ≤ optionIndex then
          (⟨some "Invalid option selected"⟩, db)
        else
          match user with
          | none => (⟨some "Please log in to vote"⟩, db)
          | some uid =>
              if (singleVote db pollId uid).isSome then
                (⟨some "You have already voted on this poll"⟩, db)
              else if 5 ≤ (db.votes.filter (fun v =>
                  v.user_id == some uid &&
                    decide (now - 60000 ≤ v.created_at))).length then
                (⟨some "Too many votes. Please wait a moment."⟩, db)
              else if db.votes.any (fun v =>
                  v.poll_id == pollId && v.user_id == some uid) then
                (⟨some "Failed to submit vote. Please try again."⟩, db)
              else
                (⟨none⟩,
                 { db with votes :=
                    db.votes ++ [⟨pollId, some uid, optionIndex.num, now⟩] })

/-- `deletePoll` from `poll-actions.ts`.  `delOk = false` models a failing
storage delete. -/
def deletePoll (auth : AuthRes) (delOk : Bool) (db : DB) (id : String) :
    ActionResult × DB :=
  match auth.errMsg with
  | some _ => (⟨some "Authentication failed"⟩, db)
  | none =>
      match auth.user with
      | none => (⟨some "You must be logged in to delete a poll"⟩, db)
      | some uid =>
          match singlePoll db id with
          | none => (⟨some "Poll not found"⟩, db)
          | some p =>
              if p.user_id ≠ uid ∧ (singleAdminRole db uid).isNone then
                (⟨some "You can only delete your own polls"⟩, db)
              else if delOk then
                (⟨none⟩,
                 { db with polls := db.polls.filter (fun q => q.id ≠ id) })
              else (⟨some "Failed to delete poll"⟩, db)

/-- `updatePoll` from `poll-actions.ts`.  `updErr` injects the storage
update failure (`error.message`).  The update is scoped by
`.eq("id", pollId).eq("user_id", user.id)`: only rows the caller owns are
modified, and matching zero rows is not an error. -/
def updatePoll (auth : AuthRes) (updErr : Option String) (db : DB)
    (pollId : String) (question : String) (optionsIn : List String) :
    ActionResult × DB :=
  let rawOptions := optionsIn.filter (fun o => o ≠ "")
  if pollId = "" ∨ pollId.length < 10 then (⟨some "Invalid poll ID"⟩, db)
  else
    match validatePollInput question rawOptions with
    | some e => (⟨some e⟩, db)
    | none =>
        let q := sanitizeInput question
        let os := rawOptions.map sanitizeInput
        match auth.errMsg with
        | some m => (⟨some m⟩, db)
        | none =>
            match auth.user with
            | none => (⟨some "You must be logged in to update a poll."⟩, db)
            | some uid =>
                match updErr with
                | some m => (⟨some m⟩, db)
                | none =>
                    (⟨none⟩,
                     { db with polls := db.polls.map (fun p =>
                        if p.id = pollId ∧ p.user_id = uid then
                          { p with question := q, options := os }
                        else p) })

/-- A value of the rate-limit map of `middleware.ts`: request count and
window-start timestamp for one client key. -/
structure RLEntry where
  count : Nat
  timestamp : Int
deriving DecidableEq, Repr

/-- `isRateLimited` from `middleware.ts`, for the entry of the requesting
client key: returns whether the request is limited together with the new
entry for the key (`windowMs = 300000`, `maxRequests = 100`). -/
def isRateLimited (now : Int) (cur : Option RLEntry) : Bool × RLEntry :=
  match cur with
  | none => (false, ⟨1, now⟩)
  | some c =>
      if now - c.timestamp > 300000 then (false, ⟨1, now⟩)
      else if c.count ≥ 100 then (true, c)
      else (false, ⟨c.count + 1, c.timestamp⟩)

/-- Run a sequence of requests (their `Date.now()` values) of one client
key through `isRateLimited`, collecting the limited-flags in order. -/
def runRL (cur : Option RLEntry) : List Int → List Bool × Option RLEntry
  | [] => ([], cur)
  | t :: ts =>
      let r := isRateLimited t cur
      let rest := runRL (some r.2) ts
      (r.1 :: rest.1, rest.2)

/-- An HTTP response produced by the middleware. -/
structure HttpResponse where
  status : Nat
  headers : List (String × String)
deriving DecidableEq, Repr

/-- `hasCSRFProtection` from `middleware.ts`; `originHost` is the host of
the parsed `origin` header (`new URL(origin).host`). -/
def hasCSRFProtection (method : String) (csrfToken : Option String)
    (originHost : Option String) (host : Option String) : Bool :=
  if method = "GET" ∨ method = "HEAD" ∨ method = "OPTIONS" then true
  else
    match originHost, host with
    | some o, some h => o == h
    | _, _ => csrfToken.isSome

/-- The early-return gate of `updateSession` from `middleware.ts`: the
rate-limit check first (429 with `Retry-After`), then the CSRF check
(403); `none` means the request proceeds to session handling.  Also
returns the updated rate-limit entry for the key. -/
def updateSessionGate (now : Int) (cur : Option RLEntry) (method : String)
    (csrfToken originHost host : Option String) :
    Option HttpResponse × RLEntry :=
  let r := isRateLimited now cur
  if r.1 then
    (some ⟨429, [("Retry-After", "300"), ("X-RateLimit-Limit", "100"),
                 ("X-RateLimit-Remaining", "0"),
                 ("X-RateLimit-Reset", toString (now + 300000))]⟩, r.2)
  else if ¬ hasCSRFProtection method csrfToken originHost host then
    (some ⟨403, [("X-CSRF-Protection", "Required")]⟩, r.2)
  else (none, r.2)

/-- Outcome of one concurrent `submitVote` call in the interleaving model:
success, rejection by the duplicate-vote pre-check (the
"You have already voted on this poll" return), or failure of the final
insert against the unique index (the
"Failed to submit vote. Please try again." return). -/
inductive VOutcome
  | ok
  | alreadyVoted
  | insertFailed
deriving DecidableEq, Repr

/-- Per-call state in the interleaving model of N concurrent
`submitVote (p, poll, i)` calls for one fixed `(poll, principal)`:
`checked` records the result of the duplicate-vote existence query
(line 205 of the source) once that call has executed it, `res` the call's
final outcome. -/
structure CCall where
  checked : Option Bool := none
  res : Option VOutcome := none
deriving DecidableEq, Repr

/-- Shared state of the interleaving model: whether a vote row for the
fixed `(poll_id, user_id)` key exists in the durable store (the unique
partial index `idx_votes_unique_user_poll` admits at most one), plus the
per-call states. -/
structure CState where
  voteExists : Bool
  calls : List CCall
deriving DecidableEq, Repr

/-- An atomic event of the interleaving: call `i` runs its duplicate-vote
check, or call `i` runs its insert. -/
inductive CEvent
  | check (i : Nat)
  | ins (i : Nat)
deriving DecidableEq, Repr

/-- The duplicate-vote check of call `i` (step 5 of the submission path):
reads the durable ledger; if the row exists the call returns
`alreadyVoted`, otherwise it proceeds towards its insert.  Out-of-range
or already-finished calls leave the state unchanged. -/
def doCheck (s : CState) (i : Nat) : CState :=
  match s.calls.get? i with
  | none => s
  | some c =>
      if c.checked.isSome || c.res.isSome then s
      else if s.voteExists then
        let c2 := { c with checked := some true,
                           res := some VOutcome.alreadyVoted }
        { s with calls := s.calls.set i c2 }
      else
        { s with calls := s.calls.set i { c with checked := some false } }

/-- The insert of call `i`: only enabled after its check found no row;
the unique index makes it fail when a row meanwhile exists, which the
source reports as the generic insert failure. -/
def doIns (s : CState) (i : Nat) : CState :=
  match s.calls.get? i with
  | none => s
  | some c =>
      if c.checked != some false || c.res.isSome then s
      else if s.voteExists then
        { s with calls := s.calls.set i { c with res := some VOutcome.insertFailed } }
      else
        { voteExists := true,
          calls := s.calls.set i { c with res := some VOutcome.ok } }

/-- One step of the interleaving model. -/
def cstep (s : CState) : CEvent → CState
  | CEvent.check i => doCheck s i
  | CEvent.ins i => doIns s i

/-- Run a whole interleaving (schedule) of events. -/
def crun (s : CState) (evs : List CEvent) : CState := evs.foldl cstep s

/-- Initial state for `n` concurrent calls on a poll the principal has not
voted on yet. -/
def cinit (n : Nat) : CState := ⟨false, List.replicate n {}⟩

/-- Whether every call of the schedule has finished with some outcome. -/
def allDone (s : CState) : Bool := s.calls.all (fun c => c.res.isSome)

/-- Number of calls that succeeded. -/
def okCount (s : CState) : Nat :=
  s.calls.countP (fun c => c.res == some VOutcome.ok)

/-- Invariant of the interleaving model: the number of successful calls is
one exactly when the vote row exists, and before the row exists no call
has finished. -/
def CInv (s : CState) : Prop :=
  okCount s = (if s.voteExists then 1 else 0) ∧
    (s.voteExists = false → ∀ c ∈ s.calls, c.res = none)

/-! ## Supporting lemmas about the sanitizer -/

theorem stripTagsGo_of_no_lt :
    ∀ cs : List Char, '<' ∉ cs → stripTagsGo none cs = cs := by
  intro cs
  induction cs with
  | nil => intro _; rfl
  | cons c cs ih =>
      intro h
      have hc : ¬ c = '<' := fun e => h (e ▸ List.mem_cons_self c cs)
      have hcs : '<' ∉ cs := fun m => h (List.mem_cons_of_mem _ m)
      simp only [stripTagsGo, if_neg hc]
      rw [ih hcs]

theorem entityOf_eq_self (c : Char) (h1 : c ≠ '<') (h2 : c ≠ '>')
    (h3 : c ≠ '"') (h4 : c ≠ '\'') (h5 : c ≠ '&') : entityOf c = [c] := by
  simp only [entityOf, if_neg h1, if_neg h2, if_neg h3, if_neg h4, if_neg h5]

theorem escapeChars_eq_self :
    ∀ cs : List Char, (∀ c ∈ cs, entityOf c = [c]) → escapeChars cs = cs := by
  intro cs
  induction cs with
  | nil => intro _; rfl
  | cons c cs ih =>
      intro h
      have hc := h c (List.mem_cons_self c cs)
      have hcs : ∀ d ∈ cs, entityOf d = [d] :=
        fun d hd => h d (List.mem_cons_of_mem _ hd)
      simp only [escapeChars, List.flatMap_cons] at *
      rw [hc, ih hcs]
      rfl

theorem mem_entityOf_ne_angle (c : Char) :
    ∀ d ∈ entityOf c, d ≠ '<' ∧ d ≠ '>' := by
  have k1 : ∀ d ∈ "&lt;".data, d ≠ '<' ∧ d ≠ '>' := by decide
  have k2 : ∀ d ∈ "&gt;".data, d ≠ '<' ∧ d ≠ '>' := by decide
  have k3 : ∀ d ∈ "&quot;".data, d ≠ '<' ∧ d ≠ '>' := by decide
  have k4 : ∀ d ∈ "&#x27;".data, d ≠ '<' ∧ d ≠ '>' := by decide
  have k5 : ∀ d ∈ "&amp;".data, d ≠ '<' ∧ d ≠ '>' := by decide
  intro d hd
  unfold entityOf at hd
  split at hd
  · exact k1 d hd
  · split at hd
    · exact k2 d hd
    · split at hd
      · exact k3 d hd
      · split at hd
        · exact k4 d hd
        · split at hd
          · exact k5 d hd
          · rename_i h1 h2 h3 h4 h5
            rcases List.mem_singleton.1 hd with rfl
            exact ⟨h1, h2⟩

theorem mem_escapeChars_ne_angle (cs : List Char) :
    ∀ d ∈ escapeChars cs, d ≠ '<' ∧ d ≠ '>' := by
  intro d hd
  rcases List.mem_flatMap.1 hd with ⟨c, _, hdc⟩
  exact mem_entityOf_ne_angle c d hdc

theorem jsTrim_eq_rdropWhile (cs : List Char) :
    jsTrim cs = (cs.dropWhile isJsWs).rdropWhile isJsWs := rfl

theorem dropWhile_rdropWhile_dropWhile {α : Type*} (p : α → Bool)
    (l : List α) :
    ((l.dropWhile p).rdropWhile p).dropWhile p = (l.dropWhile p).rdropWhile p := by
  rw [List.dropWhile_eq_self_iff]
  intro hl
  have hpre := List.rdropWhile_prefix p (l.dropWhile p)
  have hlen : 0 < (l.dropWhile p).length :=
    lt_of_lt_of_le hl hpre.length_le
  rw [List.get_eq_getElem, hpre.getElem hl]
  have := List.dropWhile_get_zero_not p l hlen
  rwa [List.get_eq_getElem] at this

theorem jsTrim_idem (cs : List Char) : jsTrim (jsTrim cs) = jsTrim cs := by
  rw [jsTrim_eq_rdropWhile, jsTrim_eq_rdropWhile,
    dropWhile_rdropWhile_dropWhile, List.rdropWhile_idempotent]

theorem mem_of_mem_jsTrim {cs : List Char} :
    ∀ c ∈ jsTrim cs, c ∈ cs := by
  intro c hc
  rw [jsTrim_eq_rdropWhile] at hc
  exact (List.dropWhile_suffix isJsWs).sublist.subset
    ((List.rdropWhile_prefix isJsWs _).sublist.subset hc)

theorem sanitizeInput_plain (cs : List Char)
    (h : ∀ c ∈ cs, c ≠ '<' ∧ c ≠ '>' ∧ c ≠ '"' ∧ c ≠ '\'' ∧ c ≠ '&') :
    sanitizeInput ⟨cs⟩ = ⟨jsTrim cs⟩ := by
  have hlt : '<' ∉ cs := fun m => (h _ m).1 rfl
  have hesc : ∀ c ∈ cs, entityOf c = [c] := by
    intro c hc
    obtain ⟨h1, h2, h3, h4, h5⟩ := h c hc
    exact entityOf_eq_self c h1 h2 h3 h4 h5
  show String.mk (jsTrim (escapeChars (stripTags cs))) = ⟨jsTrim cs⟩
  rw [stripTags, stripTagsGo_of_no_lt cs hlt, escapeChars_eq_self cs hesc]

/-! ## C7 -/

/-- C7 counterexample: `sanitizeInput` is not idempotent — on the input
`"&"` it produces `"&amp;"`, and a second application re-escapes the
ampersand of the entity, producing `"&amp;amp;"`. -/
theorem C7_counterexample :
    sanitizeInput (sanitizeInput "&") ≠ sanitizeInput "&" ∧
      sanitizeInput "&" = "&amp;" ∧
      sanitizeInput (sanitizeInput "&") = "&amp;amp;" := by decide

/-- C7 (amended): `sanitizeInput` is idempotent on every string containing
none of the five escaped characters `< > " ' &`; it is not idempotent in
general, because whenever the first application produces an entity the
second application re-escapes that entity's `&` — on `"&"` it yields
`"&amp;"` and then `"&amp;amp;"`. -/
theorem C7_sanitize_idempotent_on_plain (s : String)
    (h : ∀ c ∈ s.data, c ≠ '<' ∧ c ≠ '>' ∧ c ≠ '"' ∧ c ≠ '\'' ∧ c ≠ '&') :
    sanitizeInput (sanitizeInput s) = sanitizeInput s := by
  have h1 : sanitizeInput s = ⟨jsTrim s.data⟩ := sanitizeInput_plain s.data h
  have h2 : ∀ c ∈ jsTrim s.data,
      c ≠ '<' ∧ c ≠ '>' ∧ c ≠ '"' ∧ c ≠ '\'' ∧ c ≠ '&' :=
    fun c hc => h c (mem_of_mem_jsTrim c hc)
  rw [h1, sanitizeInput_plain (jsTrim s.data) h2, jsTrim_idem]

/-- C7 witness: the amended idempotence theorem at the concrete
special-character-free input `"  plain text  "`. -/
theorem C7_witness :
    sanitizeInput (sanitizeInput "  plain text  ") =
      sanitizeInput "  plain text  " :=
  C7_sanitize_idempotent_on_plain "  plain text  " (by decide)

/-! ## C10 -/

/-- C10: the output of `sanitizeInput` never contains a literal `<` or `>`
character, and consequently every poll present after `createPoll` either
already existed or has an angle-bracket-free question and angle-bracket-free
options. -/
theorem C10_sanitizeInput_no_angle_brackets :
    (∀ s : String,
       '<' ∉ (sanitizeInput s).data ∧ '>' ∉ (sanitizeInput s).data) ∧
    (∀ auth insErr newId db question optionsIn,
       ∀ p ∈ (createPoll auth insErr newId db question optionsIn).2.polls,
         p ∈ db.polls ∨
           (('<' ∉ p.question.data ∧ '>' ∉ p.question.data) ∧
            ∀ o ∈ p.options, '<' ∉ o.data ∧ '>' ∉ o.data)) := by
  have key : ∀ s : String,
      '<' ∉ (sanitizeInput s).data ∧ '>' ∉ (sanitizeInput s).data := by
    intro s
    constructor
    · intro hm
      exact (mem_escapeChars_ne_angle _ _ (mem_of_mem_jsTrim _ hm)).1 rfl
    · intro hm
      exact (mem_escapeChars_ne_angle _ _ (mem_of_mem_jsTrim _ hm)).2 rfl
  refine ⟨key, ?_⟩
  intro auth insErr newId db question optionsIn p hp
  simp only [createPoll] at hp
  cases hval : validatePollInput question
      (optionsIn.filter (fun o => o ≠ "")) with
  | some e => rw [hval] at hp; exact Or.inl hp
  | none =>
      rw [hval] at hp
      cases hauth : auth.errMsg with
      | some m => rw [hauth] at hp; exact Or.inl hp
      | none =>
          rw [hauth] at hp
          cases huser : auth.user with
          | none => rw [huser] at hp; exact Or.inl hp
          | some uid =>
              rw [huser] at hp
              cases hins : insErr with
              | some m => rw [hins] at hp; exact Or.inl hp
              | none =>
                  rw [hins] at hp
                  simp only at hp
                  rcases List.mem_append.1 hp with h | h
                  · exact Or.inl h
                  · rcases List.mem_singleton.1 h with rfl
                    refine Or.inr ⟨key question, ?_⟩
                    intro o ho
                    rcases List.mem_map.1 ho with ⟨o', _, rfl⟩
                    exact key o'

/-- C10 witness: the sanitized output of a concrete markup-laden input
contains no angle bracket, and the poll created from concrete
markup-laden form data is either pre-existing or angle-bracket free. -/
theorem C10_witness :
    ('<' ∉ (sanitizeInput "<b>Best</b> color?").data ∧
      '>' ∉ (sanitizeInput "<b>Best</b> color?").data) ∧
    ((⟨"poll-new-0001", "alice", sanitizeInput "Best color?",
        [sanitizeInput "Red", sanitizeInput "Blue"]⟩ : Poll) ∈
        (⟨[], [], []⟩ : DB).polls ∨
      (('<' ∉ (Poll.question ⟨"poll-new-0001", "alice",
            sanitizeInput "Best color?",
            [sanitizeInput "Red", sanitizeInput "Blue"]⟩).data ∧
        '>' ∉ (Poll.question ⟨"poll-new-0001", "alice",
            sanitizeInput "Best color?",
            [sanitizeInput "Red", sanitizeInput "Blue"]⟩).data) ∧
       ∀ o ∈ (Poll.options ⟨"poll-new-0001", "alice",
            sanitizeInput "Best color?",
            [sanitizeInput "Red", sanitizeInput "Blue"]⟩),
          '<' ∉ o.data ∧ '>' ∉ o.data)) :=
  ⟨C10_sanitizeInput_no_angle_brackets.1 "<b>Best</b> color?",
   C10_sanitizeInput_no_angle_brackets.2 ⟨some "alice", none⟩ none
     "poll-new-0001" ⟨[], [], []⟩ "Best color?" ["Red", "Blue"]
     ⟨"poll-new-0001", "alice", sanitizeInput "Best color?",
       [sanitizeInput "Red", sanitizeInput "Blue"]⟩ (by decide)⟩

/-! ## C3 -/

/-- C3: `isAdmin` fails closed — it returns `false` whenever the user id
is absent or the role-store lookup fails, and it returns `true` only for
a present user id with a successful lookup. -/
theorem C3_isAdmin_fail_closed :
    (∀ (storeOk : Bool) (db : DB), isAdmin none storeOk db = false) ∧
    (∀ (userId : Option String) (db : DB), isAdmin userId false db = false) ∧
    (∀ (userId : Option String) (storeOk : Bool) (db : DB),
       isAdmin userId storeOk db = true → userId.isSome ∧ storeOk = true) := by
  refine ⟨fun _ _ => rfl, ?_, ?_⟩
  · intro userId db
    cases userId with
    | none => rfl
    | some uid => simp [isAdmin]
  · intro userId storeOk db h
    cases userId with
    | none => simp [isAdmin] at h
    | some uid =>
        cases storeOk with
        | false => simp [isAdmin] at h
        | true => exact ⟨rfl, rfl⟩

/-- C3 witness: `isAdmin` at concrete inputs — `false` for an absent id
and for a failing store, and the fail-closed converse at an id that the
concrete store maps to the admin role. -/
theorem C3_witness :
    isAdmin none true ⟨[], [], [("a", "admin")]⟩ = false ∧
    isAdmin (some "a") false ⟨[], [], [("a", "admin")]⟩ = false ∧
    ((some "a" : Option String).isSome ∧ true = true) :=
  ⟨C3_isAdmin_fail_closed.1 true ⟨[], [], [("a", "admin")]⟩,
   C3_isAdmin_fail_closed.2.1 (some "a") ⟨[], [], [("a", "admin")]⟩,
   C3_isAdmin_fail_closed.2.2 (some "a") true ⟨[], [], [("a", "admin")]⟩
     (by decide)⟩

/-! ## C1 -/

theorem singlePoll_mem {db : DB} {id : String} {p : Poll}
    (h : singlePoll db id = some p) : p ∈ db.polls ∧ p.id = id := by
  unfold singlePoll at h
  cases hf : db.polls.filter (fun q => q.id == id) with
  | nil => rw [hf] at h; exact absurd h (by simp)
  | cons q rest =>
      cases rest with
      | nil =>
          rw [hf] at h
          injection h with hqp
          have hqmem : q ∈ db.polls.filter (fun r => r.id == id) := by
            rw [hf]; exact List.mem_singleton_self _
          have hm := List.mem_filter.1 hqmem
          rw [← hqp]
          exact ⟨hm.1, by simpa using hm.2⟩
      | cons q' rest' => rw [hf] at h; exact absurd h (by simp)

/-- C1: `deletePoll` authorization.  A non-owner without an admin role row
gets the authorization rejection and the store is unchanged (the poll
still exists); the owner's delete succeeds and removes the poll; an
admin's delete of someone else's poll succeeds; and when the caller owns
the poll the role store is never consulted — the outcome is identical for
any two role tables. -/
theorem C1_deletePoll_authorization :
    (∀ (db : DB) (uid id : String) (p : Poll) (delOk : Bool),
       singlePoll db id = some p → p.user_id ≠ uid →
       singleAdminRole db uid = none →
       deletePoll ⟨some uid, none⟩ delOk db id =
         (⟨some "You can only delete your own polls"⟩, db) ∧
         p ∈ (deletePoll ⟨some uid, none⟩ delOk db id).2.polls) ∧
    (∀ (db : DB) (uid id : String) (p : Poll),
       singlePoll db id = some p → p.user_id = uid →
       deletePoll ⟨some uid, none⟩ true db id =
         (⟨none⟩, { db with polls := db.polls.filter (fun q => q.id ≠ id) }) ∧
         p ∉ (deletePoll ⟨some uid, none⟩ true db id).2.polls) ∧
    (∀ (db : DB) (uid id : String) (p : Poll) (r : String × String),
       singlePoll db id = some p → p.user_id ≠ uid →
       singleAdminRole db uid = some r →
       deletePoll ⟨some uid, none⟩ true db id =
         (⟨none⟩, { db with polls := db.polls.filter (fun q => q.id ≠ id) })) ∧
    (∀ (ps : List Poll) (vs : List Vote) (r₁ r₂ : List (String × String))
       (uid id : String) (p : Poll) (delOk : Bool),
       singlePoll ⟨ps, vs, r₁⟩ id = some p → p.user_id = uid →
       (deletePoll ⟨some uid, none⟩ delOk ⟨ps, vs, r₁⟩ id).1 =
         (deletePoll ⟨some uid, none⟩ delOk ⟨ps, vs, r₂⟩ id).1 ∧
       (deletePoll ⟨some uid, none⟩ delOk ⟨ps, vs, r₁⟩ id).2.polls =
         (deletePoll ⟨some uid, none⟩ delOk ⟨ps, vs, r₂⟩ id).2.polls) := by
  refine ⟨?_, ?_, ?_, ?_⟩
  · intro db uid id p delOk hs hne hrole
    have hcond : p.user_id ≠ uid ∧ (singleAdminRole db uid).isNone :=
      ⟨hne, by rw [hrole]; rfl⟩
    have heq : deletePoll ⟨some uid, none⟩ delOk db id =
        (⟨some "You can only delete your own polls"⟩, db) := by
      simp only [deletePoll, hs, if_pos hcond]
    exact ⟨heq, by rw [heq]; exact (singlePoll_mem hs).1⟩
  · intro db uid id p hs hown
    have hcond : ¬ (p.user_id ≠ uid ∧ (singleAdminRole db uid).isNone) :=
      fun hc => hc.1 hown
    have heq : deletePoll ⟨some uid, none⟩ true db id =
        (⟨none⟩, { db with polls := db.polls.filter (fun q => q.id ≠ id) }) := by
      simp only [deletePoll, hs, if_neg hcond, if_pos trivial]
    refine ⟨heq, ?_⟩
    rw [heq]
    intro hmem
    have hm := List.mem_filter.1 hmem
    have hne' : p.id ≠ id := by simpa using hm.2
    exact hne' (singlePoll_mem hs).2
  · intro db uid id p r hs hne hrole
    have hcond : ¬ (p.user_id ≠ uid ∧ (singleAdminRole db uid).isNone) := by
      intro hc
      rw [hrole] at hc
      exact absurd hc.2 (by simp)
    simp only [deletePoll, hs, if_neg hcond, if_pos trivial]
  · intro ps vs r₁ r₂ uid id p delOk hs hown
    have hs₂ : singlePoll ⟨ps, vs, r₂⟩ id = some p := hs
    have hcond₁ : ¬ (p.user_id ≠ uid ∧
        (singleAdminRole ⟨ps, vs, r₁⟩ uid).isNone) := fun hc => hc.1 hown
    have hcond₂ : ¬ (p.user_id ≠ uid ∧
        (singleAdminRole ⟨ps, vs, r₂⟩ uid).isNone) := fun hc => hc.1 hown
    cases delOk with
    | true =>
        constructor
        · simp only [deletePoll, hs, hs₂, if_neg hcond₁, if_neg hcond₂,
            if_pos trivial]
        · simp only [deletePoll, hs, hs₂, if_neg hcond₁, if_neg hcond₂,
            if_pos trivial]
    | false =>
        constructor
        · simp only [deletePoll, hs, hs₂, if_neg hcond₁, if_neg hcond₂]
          rfl
        · simp only [deletePoll, hs, hs₂, if_neg hcond₁, if_neg hcond₂]
          rfl

/-- C1 witness: the theorem applied to a concrete store — principal B
("bob") cannot delete A's ("alice") poll and the poll survives, the owner
and a concrete admin ("carol") can, and with an owning caller the result
is the same under an empty and a non-empty role table. -/
theorem C1_witness :
    (deletePoll ⟨some "bob", none⟩ true
        ⟨[⟨"poll-12345678", "alice", "Best color?", ["Red", "Blue"]⟩], [], []⟩
        "poll-12345678" =
      (⟨some "You can only delete your own polls"⟩,
       ⟨[⟨"poll-12345678", "alice", "Best color?", ["Red", "Blue"]⟩], [], []⟩) ∧
     (⟨"poll-12345678", "alice", "Best color?", ["Red", "Blue"]⟩ : Poll) ∈
       (deletePoll ⟨some "bob", none⟩ true
         ⟨[⟨"poll-12345678", "alice", "Best color?", ["Red", "Blue"]⟩], [], []⟩
         "poll-12345678").2.polls) ∧
    (deletePoll ⟨some "carol", none⟩ true
        ⟨[⟨"poll-12345678", "alice", "Best color?", ["Red", "Blue"]⟩], [],
          [("carol", "admin")]⟩
        "poll-12345678" =
      (⟨none⟩,
       { polls := List.filter (fun q => q.id ≠ "poll-12345678")
           [⟨"poll-12345678", "alice", "Best color?", ["Red", "Blue"]⟩],
         votes := [], roles := [("carol", "admin")] })) :=
  ⟨C1_deletePoll_authorization.1
     ⟨[⟨"poll-12345678", "alice", "Best color?", ["Red", "Blue"]⟩], [], []⟩
     "bob" "poll-12345678"
     ⟨"poll-12345678", "alice", "Best color?", ["Red", "Blue"]⟩ true
     (by decide) (by decide) (by decide),
   C1_deletePoll_authorization.2.2.1
     ⟨[⟨"poll-12345678", "alice", "Best color?", ["Red", "Blue"]⟩], [],
       [("carol", "admin")]⟩
     "carol" "poll-12345678"
     ⟨"poll-12345678", "alice", "Best color?", ["Red", "Blue"]⟩
     ("carol", "admin") (by decide) (by decide) (by decide)⟩

/-! ## C2 -/

/-- C2 counterexample: `updatePoll` has no admin path.  In a store where
"bob" holds the admin role and "alice" owns the poll, bob's update
returns success (`error = none`) yet the poll is unchanged — an admin who
does not own the poll cannot edit it; and a non-owner non-admin ("carol")
likewise gets `error = none` with no effect instead of an explicit
deny. -/
theorem C2_counterexample :
    (updatePoll ⟨some "bob", none⟩ none
        ⟨[⟨"poll-12345678", "alice", "Old?", ["A", "B"]⟩], [],
          [("bob", "admin")]⟩
        "poll-12345678" "New question?" ["Red", "Blue"]).1.error = none ∧
    (updatePoll ⟨some "bob", none⟩ none
        ⟨[⟨"poll-12345678", "alice", "Old?", ["A", "B"]⟩], [],
          [("bob", "admin")]⟩
        "poll-12345678" "New question?" ["Red", "Blue"]).2.polls =
      [⟨"poll-12345678", "alice", "Old?", ["A", "B"]⟩] ∧
    singleAdminRole
        ⟨[⟨"poll-12345678", "alice", "Old?", ["A", "B"]⟩], [],
          [("bob", "admin")]⟩ "bob" = some ("bob", "admin") ∧
    sanitizeInput "New question?" ≠ "Old?" ∧
    (updatePoll ⟨some "carol", none⟩ none
        ⟨[⟨"poll-12345678", "alice", "Old?", ["A", "B"]⟩], [], []⟩
        "poll-12345678" "New question?" ["Red", "Blue"]).1.error = none ∧
    (updatePoll ⟨some "carol", none⟩ none
        ⟨[⟨"poll-12345678", "alice", "Old?", ["A", "B"]⟩], [], []⟩
        "poll-12345678" "New question?" ["Red", "Blue"]).2.polls =
      [⟨"poll-12345678", "alice", "Old?", ["A", "B"]⟩] := by decide

/-- C2 (amended): `updatePoll` applies the update only to polls owned by
the caller.  Under valid input and a healthy store it always reports
success; the matching owned poll receives the sanitized fields; and every
poll not owned by the caller — whether the caller is an admin or not —
survives unchanged, with no explicit deny. -/
theorem C2_updatePoll_owner_only
    (uid : String) (db : DB) (pollId question : String)
    (optionsIn : List String)
    (hfmt : ¬ (pollId = "" ∨ pollId.length < 10))
    (hval : validatePollInput question
      (optionsIn.filter (fun o => o ≠ "")) = none) :
    (updatePoll ⟨some uid, none⟩ none db pollId question optionsIn).1.error =
      none ∧
    (updatePoll ⟨some uid, none⟩ none db pollId question optionsIn).2.polls =
      db.polls.map (fun p =>
        if p.id = pollId ∧ p.user_id = uid then
          { p with question := sanitizeInput question,
                   options := (optionsIn.filter (fun o => o ≠ "")).map
                     sanitizeInput }
        else p) ∧
    ∀ p ∈ db.polls, p.user_id ≠ uid →
      p ∈ (updatePoll ⟨some uid, none⟩ none db pollId question
        optionsIn).2.polls := by
  have heq : updatePoll ⟨some uid, none⟩ none db pollId question optionsIn =
      (⟨none⟩,
       { db with polls := db.polls.map (fun p =>
          if p.id = pollId ∧ p.user_id = uid then
            { p with question := sanitizeInput question,
                     options := (optionsIn.filter (fun o => o ≠ "")).map
                       sanitizeInput }
          else p) }) := by
    simp only [updatePoll, if_neg hfmt, hval]
  refine ⟨by rw [heq], by rw [heq], ?_⟩
  intro p hp hne
  rw [heq]
  have hfix : (if p.id = pollId ∧ p.user_id = uid then
      { p with question := sanitizeInput question,
               options := (optionsIn.filter (fun o => o ≠ "")).map
                 sanitizeInput }
    else p) = p := if_neg (fun hc => hne hc.2)
  exact hfix ▸ List.mem_map_of_mem _ hp

/-- C2 witness: the amended theorem at a concrete owner update —
"alice" updating her own poll succeeds and rewrites exactly her poll. -/
theorem C2_witness :
    (updatePoll ⟨some "alice", none⟩ none
        ⟨[⟨"poll-12345678", "alice", "Old?", ["A", "B"]⟩], [], []⟩
        "poll-12345678" "New question?" ["Red", "Blue"]).1.error = none ∧
    (updatePoll ⟨some "alice", none⟩ none
        ⟨[⟨"poll-12345678", "alice", "Old?", ["A", "B"]⟩], [], []⟩
        "poll-12345678" "New question?" ["Red", "Blue"]).2.polls =
      List.map (fun p =>
        if p.id = "poll-12345678" ∧ p.user_id = "alice" then
          { p with question := sanitizeInput "New question?",
                   options := (["Red", "Blue"].filter
                     (fun o => o ≠ "")).map sanitizeInput }
        else p)
        [⟨"poll-12345678", "alice", "Old?", ["A", "B"]⟩] ∧
    ∀ p ∈ (⟨[⟨"poll-12345678", "alice", "Old?", ["A", "B"]⟩], [], []⟩ :
        DB).polls, p.user_id ≠ "alice" →
      p ∈ (updatePoll ⟨some "alice", none⟩ none
        ⟨[⟨"poll-12345678", "alice", "Old?", ["A", "B"]⟩], [], []⟩
        "poll-12345678" "New question?" ["Red", "Blue"]).2.polls :=
  C2_updatePoll_owner_only "alice"
    ⟨[⟨"poll-12345678", "alice", "Old?", ["A", "B"]⟩], [], []⟩
    "poll-12345678" "New question?" ["Red", "Blue"]
    (by decide) (by decide)

/-! ## C5 -/

/-- C5 counterexample: the anonymous-principal rejection is not the first
gate.  An anonymous caller submitting an out-of-range option index on an
existing two-option poll is rejected by the bounds gate
("Invalid option selected"), not by the anonymous gate
("Please log in to vote"), so the spec's gate order (anonymous first) does
not hold. -/
theorem C5_counterexample :
    (submitVote none
        ⟨[⟨"poll-12345678", "alice", "Best color?", ["Red", "Blue"]⟩], [], []⟩
        "poll-12345678" 7 0).1 = ⟨some "Invalid option selected"⟩ ∧
    (⟨some "Invalid option selected"⟩ : ActionResult) ≠
      ⟨some "Please log in to vote"⟩ := by decide

/-- C5 (amended): the actual gate order of `submitVote` is — pollId
format, option-index well-formedness (non-negative integer), poll lookup,
option-index bounds, *then* the anonymous-principal rejection, duplicate
vote, the 5-votes-per-60-seconds ceiling, and finally the insert (which
fails against the uniqueness constraint); each conjunct pins down the
response when that gate is the first to fail, and in every rejection the
store is returned unchanged (no partial effects). -/
theorem C5_submitVote_gate_order (user : Option String) (db : DB)
    (pollId : String) (oi : ℚ) (now : Int) :
    ((pollId = "" ∨ pollId.length < 10) →
       submitVote user db pollId oi now = (⟨some "Invalid poll ID"⟩, db)) ∧
    (¬ (pollId = "" ∨ pollId.length < 10) → (oi < 0 ∨ oi.den ≠ 1) →
       submitVote user db pollId oi now =
         (⟨some "Invalid option selection"⟩, db)) ∧
    (¬ (pollId = "" ∨ pollId.length < 10) → ¬ (oi < 0 ∨ oi.den ≠ 1) →
       singlePoll db pollId = none →
       submitVote user db pollId oi now = (⟨some "Poll not found"⟩, db)) ∧
    (∀ p : Poll, ¬ (pollId = "" ∨ pollId.length < 10) →
       ¬ (oi < 0 ∨ oi.den ≠ 1) → singlePoll db pollId = some p →
       (p.options.length : ℚ) ≤ oi →
       submitVote user db pollId oi now =
         (⟨some "Invalid option selected"⟩, db)) ∧
    (∀ p : Poll, ¬ (pollId = "" ∨ pollId.length < 10) →
       ¬ (oi < 0 ∨ oi.den ≠ 1) → singlePoll db pollId = some p →
       ¬ ((p.options.length : ℚ) ≤ oi) → user = none →
       submitVote user db pollId oi now =
         (⟨some "Please log in to vote"⟩, db)) ∧
    (∀ (p : Poll) (uid : String), ¬ (pollId = "" ∨ pollId.length < 10) →
       ¬ (oi < 0 ∨ oi.den ≠ 1) → singlePoll db pollId = some p →
       ¬ ((p.options.length : ℚ) ≤ oi) → user = some uid →
       (singleVote db pollId uid).isSome = true →
       submitVote user db pollId oi now =
         (⟨some "You have already voted on this poll"⟩, db)) ∧
    (∀ (p : Poll) (uid : String), ¬ (pollId = "" ∨ pollId.length < 10) →
       ¬ (oi < 0 ∨ oi.den ≠ 1) → singlePoll db pollId = some p →
       ¬ ((p.options.length : ℚ) ≤ oi) → user = some uid →
       (singleVote db pollId uid).isSome = false →
       5 ≤ (db.votes.filter (fun v => v.user_id == some uid &&
         decide (now - 60000 ≤ v.created_at))).length →
       submitVote user db pollId oi now =
         (⟨some "Too many votes. Please wait a moment."⟩, db)) ∧
    (∀ (p : Poll) (uid : String), ¬ (pollId = "" ∨ pollId.length < 10) →
       ¬ (oi < 0 ∨ oi.den ≠ 1) → singlePoll db pollId = some p →
       ¬ ((p.options.length : ℚ) ≤ oi) → user = some uid →
       (singleVote db pollId uid).isSome = false →
       ¬ (5 ≤ (db.votes.filter (fun v => v.user_id == some uid &&
         decide (now - 60000 ≤ v.created_at))).length) →
       db.votes.any (fun v => v.poll_id == pollId &&
         v.user_id == some uid) = true →
       submitVote user db pollId oi now =
         (⟨some "Failed to submit vote. Please try again."⟩, db)) ∧
    (∀ (p : Poll) (uid : String), ¬ (pollId = "" ∨ pollId.length < 10) →
       ¬ (oi < 0 ∨ oi.den ≠ 1) → singlePoll db pollId = some p →
       ¬ ((p.options.length : ℚ) ≤ oi) → user = some uid →
       (singleVote db pollId uid).isSome = false →
       ¬ (5 ≤ (db.votes.filter (fun v => v.user_id == some uid &&
         decide (now - 60000 ≤ v.created_at))).length) →
       db.votes.any (fun v => v.poll_id == pollId &&
         v.user_id == some uid) = false →
       submitVote user db pollId oi now =
         (⟨none⟩, { db with votes :=
           db.votes ++ [⟨pollId, some uid, oi.num, now⟩] })) := by
  refine ⟨?_, ?_, ?_, ?_, ?_, ?_, ?_, ?_, ?_⟩
  · intro h1
    simp only [submitVote, if_pos h1]
  · intro h1 h2
    simp only [submitVote, if_neg h1, if_pos h2]
  · intro h1 h2 h3
    simp only [submitVote, if_neg h1, if_neg h2, h3]
  · intro p h1 h2 h3 h4
    simp only [submitVote, if_neg h1, if_neg h2, h3, if_pos h4]
  · intro p h1 h2 h3 h4 h5
    simp only [submitVote, if_neg h1, if_neg h2, h3, if_neg h4, h5]
  · intro p uid h1 h2 h3 h4 h5 h6
    simp only [submitVote, if_neg h1, if_neg h2, h3, if_neg h4, h5,
      if_pos h6]
  · intro p uid h1 h2 h3 h4 h5 h6 h7
    simp only [submitVote, if_neg h1, if_neg h2, h3, if_neg h4, h5,
      if_neg (by simp [h6] : ¬ (singleVote db pollId uid).isSome = true),
      if_pos h7]
  · intro p uid h1 h2 h3 h4 h5 h6 h7 h8
    simp only [submitVote, if_neg h1, if_neg h2, h3, if_neg h4, h5,
      if_neg (by simp [h6] : ¬ (singleVote db pollId uid).isSome = true),
      if_neg h7, if_pos h8]
  · intro p uid h1 h2 h3 h4 h5 h6 h7 h8
    simp only [submitVote, if_neg h1, if_neg h2, h3, if_neg h4, h5,
      if_neg (by simp [h6] : ¬ (singleVote db pollId uid).isSome = true),
      if_neg h7,
      if_neg (by simp [h8] : ¬ (db.votes.any (fun v =>
        v.poll_id == pollId && v.user_id == some uid)) = true)]

/-- C5 witness: the amended gate order at concrete inputs — the anonymous
gate fires only once format, lookup and bounds have passed. -/
theorem C5_witness :
    submitVote none
        ⟨[⟨"poll-12345678", "alice", "Best color?", ["Red", "Blue"]⟩], [], []⟩
        "poll-12345678" 1 0 =
      (⟨some "Please log in to vote"⟩,
       ⟨[⟨"poll-12345678", "alice", "Best color?", ["Red", "Blue"]⟩], [],
         []⟩) :=
  (C5_submitVote_gate_order none
      ⟨[⟨"poll-12345678", "alice", "Best color?", ["Red", "Blue"]⟩], [], []⟩
      "poll-12345678" 1 0).2.2.2.2.1
    ⟨"poll-12345678", "alice", "Best color?", ["Red", "Blue"]⟩
    (by decide) (by decide) (by decide) (by decide) rfl

/-! ## C6 -/

/-- C6: for every option index outside `[0, len(options))` of the
referenced poll — negative, non-integer, or at least the number of
options — `submitVote` returns an invalid-option error and creates no
vote row (the store is unchanged). -/
theorem C6_submitVote_out_of_range (user : Option String) (db : DB)
    (pollId : String) (oi : ℚ) (now : Int) (p : Poll)
    (hfmt : ¬ (pollId = "" ∨ pollId.length < 10))
    (hp : singlePoll db pollId = some p)
    (hout : oi < 0 ∨ oi.den ≠ 1 ∨ (p.options.length : ℚ) ≤ oi) :
    ((submitVote user db pollId oi now).1.error =
        some "Invalid option selection" ∨
      (submitVote user db pollId oi now).1.error =
        some "Invalid option selected") ∧
    (submitVote user db pollId oi now).2 = db := by
  by_cases h2 : oi < 0 ∨ oi.den ≠ 1
  · constructor
    · left
      simp only [submitVote, if_neg hfmt, if_pos h2]
    · simp only [submitVote, if_neg hfmt, if_pos h2]
  · have h4 : (p.options.length : ℚ) ≤ oi := by
      rcases hout with h | h | h
      · exact absurd (Or.inl h) h2
      · exact absurd (Or.inr h) h2
      · exact h
    constructor
    · right
      simp only [submitVote, if_neg hfmt, if_neg h2, hp, if_pos h4]
    · simp only [submitVote, if_neg hfmt, if_neg h2, hp, if_pos h4]

/-- C6 witness: index 5 on a concrete two-option poll is rejected with the
invalid-option error and the store is unchanged. -/
theorem C6_witness :
    ((submitVote (some "bob")
        ⟨[⟨"poll-12345678", "alice", "Best color?", ["Red", "Blue"]⟩], [], []⟩
        "poll-12345678" 5 0).1.error = some "Invalid option selection" ∨
      (submitVote (some "bob")
        ⟨[⟨"poll-12345678", "alice", "Best color?", ["Red", "Blue"]⟩], [], []⟩
        "poll-12345678" 5 0).1.error = some "Invalid option selected") ∧
    (submitVote (some "bob")
        ⟨[⟨"poll-12345678", "alice", "Best color?", ["Red", "Blue"]⟩], [], []⟩
        "poll-12345678" 5 0).2 =
      ⟨[⟨"poll-12345678", "alice", "Best color?", ["Red", "Blue"]⟩], [], []⟩ :=
  C6_submitVote_out_of_range (some "bob")
    ⟨[⟨"poll-12345678", "alice", "Best color?", ["Red", "Blue"]⟩], [], []⟩
    "poll-12345678" 5 0
    ⟨"poll-12345678", "alice", "Best color?", ["Red", "Blue"]⟩
    (by decide) (by decide) (by decide)

/-! ## C8 -/

theorem runRL_in_window (t0 : Int) :
    ∀ (ts : List Int) (c : Nat), c ≤ 100 →
      (∀ t ∈ ts, t - t0 ≤ 300000) →
      (runRL (some ⟨c, t0⟩) ts).1 =
        (List.range ts.length).map (fun i => decide (100 ≤ c + i)) := by
  intro ts
  induction ts with
  | nil => intro c _ _; rfl
  | cons t ts ih =>
      intro c hc hw
      have hst : ¬ (t - t0 > 300000) := by
        have := hw t (List.mem_cons_self t ts)
        omega
      have hwtail : ∀ t' ∈ ts, t' - t0 ≤ 300000 :=
        fun t' ht' => hw t' (List.mem_cons_of_mem _ ht')
      by_cases h100 : c ≥ 100
      · have hceq : c = 100 := Nat.le_antisymm hc h100
        subst hceq
        simp only [runRL, isRateLimited, if_neg hst, if_pos h100]
        rw [ih 100 hc hwtail, List.length_cons, List.range_succ_eq_map,
          List.map_cons, List.map_map]
        refine List.cons_eq_cons.mpr ⟨by decide, ?_⟩
        refine List.map_congr_left ?_
        intro i _
        refine decide_eq_decide.2 ?_
        constructor <;> intro <;> omega
      · simp only [runRL, isRateLimited, if_neg hst, if_neg h100]
        rw [ih (c + 1) (by omega) hwtail, List.length_cons,
          List.range_succ_eq_map, List.map_cons, List.map_map]
        refine List.cons_eq_cons.mpr
          ⟨(decide_eq_false (by omega : ¬ (100 ≤ c + 0))).symm, ?_⟩
        refine List.map_congr_left ?_
        intro i _
        refine decide_eq_decide.2 ?_
        constructor <;> intro <;> omega

/-- C8: the sliding-window rate limiter.  (1) Starting from an empty
entry, for any sequence of requests of one client key all falling within
300,000 ms of the first, the i-th request (0-based) is limited exactly
when `i ≥ 100` — requests 1..100 pass and request 101 onward is rejected.
(2) A request against a stale window (`now - windowStart > 300000`)
resets the entry to count 1 and is allowed.  (3) Whenever the limiter
rejects, `updateSession` short-circuits with a 429 response carrying a
`Retry-After` header. -/
theorem C8_rate_limiter :
    (∀ (t0 : Int) (ts : List Int), (∀ t ∈ ts, t - t0 ≤ 300000) →
       (runRL none (t0 :: ts)).1 =
         (List.range (ts.length + 1)).map (fun i => decide (100 ≤ i))) ∧
    (∀ (e : RLEntry) (now : Int), now - e.timestamp > 300000 →
       isRateLimited now (some e) = (false, ⟨1, now⟩)) ∧
    (∀ (now : Int) (cur : Option RLEntry) (method : String)
       (csrfToken originHost host : Option String),
       (isRateLimited now cur).1 = true →
       ∃ resp : HttpResponse,
         (updateSessionGate now cur method csrfToken originHost host).1 =
           some resp ∧
         resp.status = 429 ∧ ("Retry-After", "300") ∈ resp.headers) := by
  refine ⟨?_, ?_, ?_⟩
  · intro t0 ts hw
    have h0 : isRateLimited t0 none = (false, ⟨1, t0⟩) := rfl
    simp only [runRL, h0]
    rw [runRL_in_window t0 ts 1 (by omega) hw, List.range_succ_eq_map,
      List.map_cons, List.map_map]
    refine List.cons_eq_cons.mpr ⟨by decide, ?_⟩
    refine List.map_congr_left ?_
    intro i _
    refine decide_eq_decide.2 ?_
    constructor <;> intro <;> omega
  · intro e now h
    simp only [isRateLimited, if_pos h]
  · intro now cur method csrfToken originHost host h
    refine ⟨⟨429, [("Retry-After", "300"), ("X-RateLimit-Limit", "100"),
      ("X-RateLimit-Remaining", "0"),
      ("X-RateLimit-Reset", toString (now + 300000))]⟩, ?_, rfl, ?_⟩
    · simp only [updateSessionGate, if_pos h]
    · exact List.mem_cons_self _ _

/-- C8 witness: 102 immediate requests from one key — the first 100 are
allowed and requests 101 and 102 are rejected; a stale window resets; and
the concrete saturated entry yields a 429 with `Retry-After`. -/
theorem C8_witness :
    ((runRL none ((0 : Int) :: List.replicate 101 (0 : Int))).1 =
       (List.range ((List.replicate 101 (0 : Int)).length + 1)).map
         (fun i => decide (100 ≤ i)) ∧
     isRateLimited 300001 (some ⟨100, 0⟩) = (false, ⟨1, 300001⟩) ∧
     ∃ resp : HttpResponse,
       (updateSessionGate 0 (some ⟨100, 0⟩) "POST" none none none).1 =
         some resp ∧
       resp.status = 429 ∧ ("Retry-After", "300") ∈ resp.headers) :=
  ⟨C8_rate_limiter.1 0 (List.replicate 101 0) (by decide),
   C8_rate_limiter.2.1 ⟨100, 0⟩ 300001 (by decide),
   C8_rate_limiter.2.2 0 (some ⟨100, 0⟩) "POST" none none none (by decide)⟩

/-! ## C9 -/

/-- C9 counterexample: `createPoll` does not translate storage failures to
a generic message — when the insert fails its raw `error.message` is
returned verbatim to the caller. -/
theorem C9_counterexample :
    (createPoll ⟨some "alice", none⟩
        (some "duplicate key value violates unique constraint polls_pkey")
        "poll-new-0001" ⟨[], [], []⟩ "Best color?" ["Red", "Blue"]).1.error =
      some "duplicate key value violates unique constraint polls_pkey" := by
  decide

/-- C9 (amended): all operations return the uniform
`{ data | null, error: string | null }` shape, but only `deletePoll` and
`submitVote` translate storage failures to generic messages —
`createPoll` and `updatePoll` return the raw storage and auth-layer
`error.message` verbatim, and `getPollById` returns the raw fetch error
verbatim. -/
theorem C9_error_propagation :
    (∀ (uid m newId : String) (db : DB) (question : String)
       (optionsIn : List String),
       validatePollInput question (optionsIn.filter (fun o => o ≠ "")) =
         none →
       createPoll ⟨some uid, none⟩ (some m) newId db question optionsIn =
         (⟨some m⟩, db)) ∧
    (∀ (u : Option String) (m : String) (insErr : Option String)
       (newId : String) (db : DB) (question : String)
       (optionsIn : List String),
       validatePollInput question (optionsIn.filter (fun o => o ≠ "")) =
         none →
       createPoll ⟨u, some m⟩ insErr newId db question optionsIn =
         (⟨some m⟩, db)) ∧
    (∀ (uid m : String) (db : DB) (pollId question : String)
       (optionsIn : List String),
       ¬ (pollId = "" ∨ pollId.length < 10) →
       validatePollInput question (optionsIn.filter (fun o => o ≠ "")) =
         none →
       updatePoll ⟨some uid, none⟩ (some m) db pollId question optionsIn =
         (⟨some m⟩, db)) ∧
    (∀ (m : String) (db : DB) (id : String),
       singlePoll db id = none →
       getPollById m db id = (none, some m)) ∧
    (∀ (db : DB) (uid id : String) (p : Poll),
       singlePoll db id = some p → p.user_id = uid →
       deletePoll ⟨some uid, none⟩ false db id =
         (⟨some "Failed to delete poll"⟩, db)) := by
  refine ⟨?_, ?_, ?_, ?_, ?_⟩
  · intro uid m newId db question optionsIn hval
    simp only [createPoll, hval]
  · intro u m insErr newId db question optionsIn hval
    simp only [createPoll, hval]
  · intro uid m db pollId question optionsIn hfmt hval
    simp only [updatePoll, if_neg hfmt, hval]
  · intro m db id hs
    simp only [getPollById, hs]
  · intro db uid id p hs hown
    have hcond : ¬ (p.user_id ≠ uid ∧ (singleAdminRole db uid).isNone) :=
      fun hc => hc.1 hown
    simp only [deletePoll, hs, if_neg hcond]
    rfl

/-- C9 witness: the amended propagation behavior at concrete inputs —
`createPoll` leaks the raw auth error, `getPollById` leaks the raw fetch
error, and the owner-path `deletePoll` storage failure is generic. -/
theorem C9_witness :
    createPoll ⟨some "alice", none⟩ (some "connection reset by peer")
        "poll-new-0001" ⟨[], [], []⟩ "Best color?" ["Red", "Blue"] =
      (⟨some "connection reset by peer"⟩, ⟨[], [], []⟩) ∧
    getPollById "JSON object requested, multiple (or no) rows returned"
        ⟨[], [], []⟩ "poll-12345678" =
      (none, some "JSON object requested, multiple (or no) rows returned") ∧
    deletePoll ⟨some "alice", none⟩ false
        ⟨[⟨"poll-12345678", "alice", "Best color?", ["Red", "Blue"]⟩], [], []⟩
        "poll-12345678" =
      (⟨some "Failed to delete poll"⟩,
       ⟨[⟨"poll-12345678", "alice", "Best color?", ["Red", "Blue"]⟩], [],
         []⟩) :=
  ⟨C9_error_propagation.1 "alice" "connection reset by peer" "poll-new-0001"
     ⟨[], [], []⟩ "Best color?" ["Red", "Blue"] (by decide),
   C9_error_propagation.2.2.2.1
     "JSON object requested, multiple (or no) rows returned"
     ⟨[], [], []⟩ "poll-12345678" (by decide),
   C9_error_propagation.2.2.2.2
     ⟨[⟨"poll-12345678", "alice", "Best color?", ["Red", "Blue"]⟩], [], []⟩
     "alice" "poll-12345678"
     ⟨"poll-12345678", "alice", "Best color?", ["Red", "Blue"]⟩
     (by decide) (by decide)⟩

/-! ## C4 -/

theorem mem_set_or {α : Type*} :
    ∀ (l : List α) (i : Nat) (x : α), ∀ y ∈ l.set i x, y = x ∨ y ∈ l := by
  intro l
  induction l with
  | nil => intro i x y hy; simp at hy
  | cons a as ih =>
      intro i x y hy
      cases i with
      | zero =>
          simp only [List.set] at hy
          rcases List.mem_cons.1 hy with h | h
          · exact Or.inl h
          · exact Or.inr (List.mem_cons_of_mem _ h)
      | succ n =>
          simp only [List.set] at hy
          rcases List.mem_cons.1 hy with h | h
          · exact Or.inr (h ▸ List.mem_cons_self _ _)
          · rcases ih n x y h with h' | h'
            · exact Or.inl h'
            · exact Or.inr (List.mem_cons_of_mem _ h')

theorem countP_set_of_false {α : Type*} (p : α → Bool) :
    ∀ (l : List α) (i : Nat) (c x : α), l.get? i = some c → p c = false →
      (l.set i x).countP p = l.countP p + (if p x then 1 else 0) := by
  intro l
  induction l with
  | nil => intro i c x hg _; simp at hg
  | cons a as ih =>
      intro i c x hg hc
      cases i with
      | zero =>
          have hac : a = c := by
            simp only [List.get?] at hg
            injection hg
          subst hac
          simp only [List.set, List.countP_cons, hc]
          simp
      | succ n =>
          simp only [List.get?] at hg
          simp only [List.set, List.countP_cons]
          rw [ih n c x hg hc]
          omega

theorem doCheck_none (s : CState) (i : Nat)
    (hg : s.calls.get? i = none) : doCheck s i = s := by
  unfold doCheck
  split
  · rfl
  · rename_i c' heq
    rw [hg] at heq
    exact absurd heq (by simp)

theorem doCheck_done (s : CState) (i : Nat) (c : CCall)
    (hg : s.calls.get? i = some c)
    (hdone : (c.checked.isSome || c.res.isSome) = true) :
    doCheck s i = s := by
  unfold doCheck
  split
  · rfl
  · rename_i c' heq
    rw [hg] at heq
    injection heq with hcc
    subst hcc
    rw [if_pos hdone]

theorem doCheck_dup (s : CState) (i : Nat) (c : CCall)
    (hg : s.calls.get? i = some c)
    (hnew : (c.checked.isSome || c.res.isSome) = false)
    (hv : s.voteExists = true) :
    doCheck s i = { s with calls := s.calls.set i { c with checked := some true, res := some VOutcome.alreadyVoted } } := by
  unfold doCheck
  split
  · rename_i heq
    rw [hg] at heq
    exact absurd heq (by simp)
  · rename_i c' heq
    rw [hg] at heq
    injection heq with hcc
    subst hcc
    rw [if_neg (by simp [hnew]), if_pos hv]

theorem doCheck_pass (s : CState) (i : Nat) (c : CCall)
    (hg : s.calls.get? i = some c)
    (hnew : (c.checked.isSome || c.res.isSome) = false)
    (hv : s.voteExists = false) :
    doCheck s i = { s with calls := s.calls.set i { c with checked := some false } } := by
  unfold doCheck
  split
  · rename_i heq
    rw [hg] at heq
    exact absurd heq (by simp)
  · rename_i c' heq
    rw [hg] at heq
    injection heq with hcc
    subst hcc
    rw [if_neg (by simp [hnew]), if_neg (by simp [hv])]

theorem doIns_none (s : CState) (i : Nat)
    (hg : s.calls.get? i = none) : doIns s i = s := by
  unfold doIns
  split
  · rfl
  · rename_i c' heq
    rw [hg] at heq
    exact absurd heq (by simp)

theorem doIns_done (s : CState) (i : Nat) (c : CCall)
    (hg : s.calls.get? i = some c)
    (hdone : (c.checked != some false || c.res.isSome) = true) :
    doIns s i = s := by
  unfold doIns
  split
  · rfl
  · rename_i c' heq
    rw [hg] at heq
    injection heq with hcc
    subst hcc
    rw [if_pos hdone]

theorem doIns_fail (s : CState) (i : Nat) (c : CCall)
    (hg : s.calls.get? i = some c)
    (hnew : (c.checked != some false || c.res.isSome) = false)
    (hv : s.voteExists = true) :
    doIns s i = { s with calls := s.calls.set i { c with res := some VOutcome.insertFailed } } := by
  unfold doIns
  split
  · rename_i heq
    rw [hg] at heq
    exact absurd heq (by simp)
  · rename_i c' heq
    rw [hg] at heq
    injection heq with hcc
    subst hcc
    rw [if_neg (by simp [hnew]), if_pos hv]

theorem doIns_ok (s : CState) (i : Nat) (c : CCall)
    (hg : s.calls.get? i = some c)
    (hnew : (c.checked != some false || c.res.isSome) = false)
    (hv : s.voteExists = false) :
    doIns s i = { voteExists := true, calls := s.calls.set i { c with res := some VOutcome.ok } } := by
  unfold doIns
  split
  · rename_i heq
    rw [hg] at heq
    exact absurd heq (by simp)
  · rename_i c' heq
    rw [hg] at heq
    injection heq with hcc
    subst hcc
    rw [if_neg (by simp [hnew]), if_neg (by simp [hv])]

theorem res_none_of_check_guard {c : CCall}
    (hnew : (c.checked.isSome || c.res.isSome) = false) : c.res = none := by
  cases hr : c.res with
  | none => rfl
  | some v => rw [hr] at hnew; simp at hnew

theorem res_none_of_ins_guard {c : CCall}
    (hnew : (c.checked != some false || c.res.isSome) = false) :
    c.res = none := by
  cases hr : c.res with
  | none => rfl
  | some v => rw [hr] at hnew; simp at hnew

theorem cinv_doCheck (s : CState) (i : Nat) (h : CInv s) :
    CInv (doCheck s i) := by
  obtain ⟨h1, h2⟩ := h
  cases hg : s.calls.get? i with
  | none => rw [doCheck_none s i hg]; exact ⟨h1, h2⟩
  | some c =>
      by_cases hdone : (c.checked.isSome || c.res.isSome) = true
      · rw [doCheck_done s i c hg hdone]; exact ⟨h1, h2⟩
      · have hnew : (c.checked.isSome || c.res.isSome) = false := by
          revert hdone; cases c.checked.isSome || c.res.isSome <;> simp
        have hres : c.res = none := res_none_of_check_guard hnew
        have hpc : (c.res == some VOutcome.ok) = false := by rw [hres]; rfl
        by_cases hv : s.voteExists = true
        · rw [doCheck_dup s i c hg hnew hv]
          constructor
          · simp only [okCount]
            rw [countP_set_of_false _ _ _ _ _ hg hpc]
            have hx : (({ c with checked := some true, res := some VOutcome.alreadyVoted } : CCall).res == some VOutcome.ok) = false := rfl
            simp only [okCount] at h1
            simp [hx, h1]
          · intro hf
            have hsf : s.voteExists = false := hf
            rw [hv] at hsf
            exact absurd hsf (by simp)
        · have hvf : s.voteExists = false := by
            revert hv; cases s.voteExists <;> simp
          rw [doCheck_pass s i c hg hnew hvf]
          constructor
          · simp only [okCount]
            rw [countP_set_of_false _ _ _ _ _ hg hpc]
            have hx : (({ c with checked := some false } : CCall).res == some VOutcome.ok) = false := hpc
            simp only [okCount] at h1
            simp [hx, h1]
          · intro _ y hy
            rcases mem_set_or _ _ _ y hy with rfl | hmem
            · exact hres
            · exact h2 hvf y hmem

theorem cinv_doIns (s : CState) (i : Nat) (h : CInv s) :
    CInv (doIns s i) := by
  obtain ⟨h1, h2⟩ := h
  cases hg : s.calls.get? i with
  | none => rw [doIns_none s i hg]; exact ⟨h1, h2⟩
  | some c =>
      by_cases hdone : (c.checked != some false || c.res.isSome) = true
      · rw [doIns_done s i c hg hdone]; exact ⟨h1, h2⟩
      · have hnew : (c.checked != some false || c.res.isSome) = false := by
          revert hdone; cases c.checked != some false || c.res.isSome <;> simp
        have hres : c.res = none := res_none_of_ins_guard hnew
        have hpc : (c.res == some VOutcome.ok) = false := by rw [hres]; rfl
        by_cases hv : s.voteExists = true
        · rw [doIns_fail s i c hg hnew hv]
          constructor
          · simp only [okCount]
            rw [countP_set_of_false _ _ _ _ _ hg hpc]
            have hx : (({ c with res := some VOutcome.insertFailed } : CCall).res == some VOutcome.ok) = false := rfl
            simp only [okCount] at h1
            simp [hx, h1]
          · intro hf
            have hsf : s.voteExists = false := hf
            rw [hv] at hsf
            exact absurd hsf (by simp)
        · have hvf : s.voteExists = false := by
            revert hv; cases s.voteExists <;> simp
          rw [doIns_ok s i c hg hnew hvf]
          constructor
          · simp only [okCount]
            rw [countP_set_of_false _ _ _ _ _ hg hpc]
            have hx : (({ c with res := some VOutcome.ok } : CCall).res == some VOutcome.ok) = true := rfl
            have h10 : s.calls.countP (fun d => d.res == some VOutcome.ok) = 0 := by
              simp only [okCount] at h1
              rw [hvf] at h1
              simpa using h1
            simp [hx, h10]
          · intro hf
            exact absurd hf (by simp)

theorem cinv_step (s : CState) (e : CEvent) (h : CInv s) :
    CInv (cstep s e) := by
  cases e with
  | check i => exact cinv_doCheck s i h
  | ins i => exact cinv_doIns s i h

theorem cinv_run (evs : List CEvent) :
    ∀ s : CState, CInv s → CInv (crun s evs) := by
  induction evs with
  | nil => intro s h; exact h
  | cons e evs ih => intro s h; exact ih _ (cinv_step s e h)

theorem calls_length_step (s : CState) (e : CEvent) :
    (cstep s e).calls.length = s.calls.length := by
  have key : ∀ (f : CState → Nat → CState), f = doCheck ∨ f = doIns →
      ∀ i, (f s i).calls.length = s.calls.length := by
    intro f hf i
    rcases hf with rfl | rfl
    · cases hg : s.calls.get? i with
      | none => rw [doCheck_none s i hg]
      | some c =>
          by_cases hdone : (c.checked.isSome || c.res.isSome) = true
          · rw [doCheck_done s i c hg hdone]
          · have hnew : (c.checked.isSome || c.res.isSome) = false := by
              revert hdone; cases c.checked.isSome || c.res.isSome <;> simp
            by_cases hv : s.voteExists = true
            · rw [doCheck_dup s i c hg hnew hv]; simp
            · have hvf : s.voteExists = false := by
                revert hv; cases s.voteExists <;> simp
              rw [doCheck_pass s i c hg hnew hvf]; simp
    · cases hg : s.calls.get? i with
      | none => rw [doIns_none s i hg]
      | some c =>
          by_cases hdone : (c.checked != some false || c.res.isSome) = true
          · rw [doIns_done s i c hg hdone]
          · have hnew : (c.checked != some false || c.res.isSome) = false := by
              revert hdone
              cases c.checked != some false || c.res.isSome <;> simp
            by_cases hv : s.voteExists = true
            · rw [doIns_fail s i c hg hnew hv]; simp
            · have hvf : s.voteExists = false := by
                revert hv; cases s.voteExists <;> simp
              rw [doIns_ok s i c hg hnew hvf]; simp
  cases e with
  | check i => exact key doCheck (Or.inl rfl) i
  | ins i => exact key doIns (Or.inr rfl) i

theorem calls_length_run (evs : List CEvent) :
    ∀ s : CState, (crun s evs).calls.length = s.calls.length := by
  induction evs with
  | nil => intro s; rfl
  | cons e evs ih =>
      intro s
      calc (crun (cstep s e) evs).calls.length
          = (cstep s e).calls.length := ih _
        _ = s.calls.length := calls_length_step s e

theorem cinv_init (n : Nat) : CInv (cinit n) := by
  constructor
  · show (List.replicate n ({} : CCall)).countP _ = _
    rw [List.countP_eq_zero.2]
    · rfl
    · intro a ha
      rw [List.eq_of_mem_replicate ha]
      simp
  · intro _ c hc
    rw [List.eq_of_mem_replicate hc]

/-- C4 counterexample: not every losing concurrent call returns the
`AlreadyVoted` rejection.  In the interleaving where both duplicate-vote
checks run before either insert, the second insert hits the uniqueness
constraint and the source returns the generic insert failure instead of
the `AlreadyVoted` message. -/
theorem C4_counterexample :
    (crun (cinit 2) [CEvent.check 0, CEvent.check 1, CEvent.ins 0,
        CEvent.ins 1]).calls.map (fun c => c.res) =
      [some VOutcome.ok, some VOutcome.insertFailed] ∧
    VOutcome.insertFailed ≠ VOutcome.alreadyVoted := by decide

/-- C4 (amended): among N ≥ 1 concurrent `submitVote` calls for one fixed
authenticated principal and poll, under every interleaving in which all
calls finish, exactly one call succeeds — and every other call is
rejected, either by the duplicate-vote pre-check (`AlreadyVoted`) or by
the uniqueness constraint at insert time (reported as the generic insert
failure), depending on the interleaving. -/
theorem C4_exactly_one_success (n : Nat) (evs : List CEvent)
    (hn : 1 ≤ n) (hdone : allDone (crun (cinit n) evs) = true) :
    okCount (crun (cinit n) evs) = 1 ∧
    ∀ c ∈ (crun (cinit n) evs).calls,
      c.res = some VOutcome.ok ∨ c.res = some VOutcome.alreadyVoted ∨
        c.res = some VOutcome.insertFailed := by
  have hinv := cinv_run evs (cinit n) (cinv_init n)
  have hlen : (crun (cinit n) evs).calls.length = n := by
    rw [calls_length_run]
    simp [cinit]
  have hne : (crun (cinit n) evs).calls ≠ [] := by
    intro hnil
    rw [hnil] at hlen
    simp at hlen
    omega
  obtain ⟨c₀, hc₀⟩ := List.exists_mem_of_ne_nil _ hne
  have hall := List.all_eq_true.1 hdone
  have hv : (crun (cinit n) evs).voteExists = true := by
    by_contra hvf
    have hvf' : (crun (cinit n) evs).voteExists = false := by
      revert hvf; cases (crun (cinit n) evs).voteExists <;> simp
    have hnone := hinv.2 hvf' c₀ hc₀
    have hs := hall c₀ hc₀
    rw [hnone] at hs
    simp at hs
  constructor
  · have h1 := hinv.1
    rw [hv] at h1
    simpa using h1
  · intro c hc
    have hs := hall c hc
    cases hrv : c.res with
    | none => rw [hrv] at hs; simp at hs
    | some v =>
        cases v with
        | ok => exact Or.inl rfl
        | alreadyVoted => exact Or.inr (Or.inl rfl)
        | insertFailed => exact Or.inr (Or.inr rfl)

/-- C4 witness: the amended theorem at a complete concrete interleaving of
two calls (check 0, insert 0, check 1): exactly one success. -/
theorem C4_witness :
    okCount (crun (cinit 2) [CEvent.check 0, CEvent.ins 0,
      CEvent.check 1]) = 1 :=
  (C4_exactly_one_success 2 [CEvent.check 0, CEvent.ins 0, CEvent.check 1]
    (by decide) (by decide)).1

end AlxPolly
